import Mathlib

/-!
Shallow embedding of the order engine of the `marketplace-server` repository.

The embedding follows `src/scripts/src/public/services/orders.ts` (service
layer), the order entity of `models/orders` (statuses, `setStatus`,
`expirationDate`, `getOne`, `getAll`) and `src/scripts/src/utils/RateLimit.ts`.

Modelling conventions:
* JS `Date` values are milliseconds since the epoch, embedded as `Int`;
  every service call takes the current time `now` explicitly.
* The relational store is a `State` record holding the persisted order rows,
  the offer rows, a fresh-id counter (random string ids are modelled as fresh
  naturals) and the log of `payment.payTo` invocations.
* Stateful service calls are explicit state passing: a call maps a `State` to
  `Except Err α × State`; a thrown JS exception is the `.error` case, and in
  the source every throw happens before any write, so the state component is
  returned unchanged on error.
* SQL `ORDER BY` is modelled by a structurally recursive insertion sort with
  the comparator of the query (`completion_date DESC, id DESC`); the nullable
  `completion_date` column sorts NULLs first on DESC as in PostgreSQL.
* `moment(undefined)` is the current instant, hence the `now` argument of
  `Order.expirationDate`, used only when `currentStatusDate` is NULL.
-/

namespace Marketplace

/-- Timestamps in milliseconds since the epoch (JS `Date`). -/
abbrev Date := Int

/-- OfferType from models/offers. -/
inductive OfferType
  | earn
  | spend
deriving DecidableEq, Repr

/-- OrderOrigin from models/orders. -/
inductive OrderOrigin
  | marketplace
  | external
deriving DecidableEq, Repr

/-- OpenOrderStatus from models/orders: the three persisted statuses plus opened. -/
inductive OpenOrderStatus
  | opened
  | pending
  | completed
  | failed
deriving DecidableEq, Repr

/-- OrderError from models/orders. -/
structure OrderError where
  code : Int
  error : String
  message : Option String := none
deriving DecidableEq, Repr

/-- BlockchainData; only the field used by the projection is modelled. -/
structure BlockchainData where
  recipient_address : Option String := none
deriving DecidableEq, Repr

/-- Order meta payload. Marketplace orders carry title/description plus the
optional call_to_action/content; external orders carry
title/description/wallet_address. Modelled as one record with optional
origin-specific fields. -/
structure OrderMeta where
  title : String
  description : String
  call_to_action : Option String := none
  content : Option String := none
  wallet_address : Option String := none
deriving DecidableEq, Repr

/-- Offer cap record: `cap.total` and `cap.per_user`. -/
structure Cap where
  total : Nat
  per_user : Nat
deriving DecidableEq, Repr

/-- Offer row (read-only collaborator entity). The same record also stands for
the validated JWT offer consumed by `createExternalOrder`, whose extra fields
are `title`/`description`/`wallet_address`. -/
structure Offer where
  id : String
  amount : Int
  type : OfferType
  cap : Cap
  orderMeta : OrderMeta
  title : String := ""
  description : String := ""
  wallet_address : Option String := none
deriving DecidableEq, Repr

/-- A persisted order row (entity `orders` of models/orders). -/
structure Order where
  id : Nat
  origin : OrderOrigin
  type : OfferType
  userId : String
  offerId : String
  meta : OrderMeta
  error : Option OrderError := none
  amount : Int
  status : OpenOrderStatus
  createdDate : Date
  currentStatusDate : Option Date := none
  value : Option String := none
  blockchainData : Option BlockchainData := none
deriving DecidableEq, Repr

/-- `Order.setStatus`: sets the status and stamps `currentStatusDate` with the
current time. -/
def Order.setStatus (o : Order) (s : OpenOrderStatus) (now : Date) : Order :=
  { o with status := s, currentStatusDate := some now }

/-- Ten minutes in milliseconds (`moment(createdDate).add(10, "minutes")`). -/
def TEN_MINUTES_MS : Int := 10 * 60 * 1000

/-- Forty-five seconds in milliseconds (`moment(currentStatusDate).add(45, "seconds")`). -/
def FORTY_FIVE_SECONDS_MS : Int := 45 * 1000

/-- `Order.expirationDate` getter: opened orders expire 10 minutes after
creation, pending orders 45 seconds after entering pending, terminal orders
never. When `currentStatusDate` is NULL, `moment(undefined)` is the current
instant `now`. -/
def Order.expirationDate (o : Order) (now : Date) : Option Date :=
  match o.status with
  | .opened => some (o.createdDate + TEN_MINUTES_MS)
  | .pending => some (o.currentStatusDate.getD now + FORTY_FIVE_SECONDS_MS)
  | _ => none

/-- One recorded invocation of the payment capability `payment.payTo`. -/
structure PayToCall where
  walletAddress : String
  appId : String
  amount : Int
  orderId : Nat
deriving DecidableEq, Repr

/-- The persistent state seen by the order services. -/
structure State where
  orders : List Order
  offers : List Offer
  nextId : Nat
  payments : List PayToCall
deriving DecidableEq, Repr

/-- `offerDb.Offer.findOne(offerId)`. -/
def findOffer (st : State) (offerId : String) : Option Offer :=
  st.offers.find? (fun o => decide (o.id = offerId))

/-- `db.MarketplaceOrder.findOne({where: {userId, offerId, status: "opened"}})`. -/
def findOpenMarketplaceOrder (st : State) (userId offerId : String) : Option Order :=
  st.orders.find? (fun o =>
    decide (o.origin = .marketplace ∧ o.userId = userId ∧ o.offerId = offerId ∧ o.status = .opened))

/-- `db.ExternalOrder.findOne({where: {userId, status: "opened", offerId}})`. -/
def findOpenExternalOrder (st : State) (userId offerId : String) : Option Order :=
  st.orders.find? (fun o =>
    decide (o.origin = .external ∧ o.userId = userId ∧ o.status = .opened ∧ o.offerId = offerId))

/-- `db.MarketplaceOrder.count({where: {offerId}})`. -/
def countOffersOrders (st : State) (offerId : String) : Nat :=
  (st.orders.filter (fun o => decide (o.origin = .marketplace ∧ o.offerId = offerId))).length

/-- `db.MarketplaceOrder.count({where: {userId, offerId}})`. -/
def countUserOffersOrders (st : State) (userId offerId : String) : Nat :=
  (st.orders.filter (fun o =>
    decide (o.origin = .marketplace ∧ o.userId = userId ∧ o.offerId = offerId))).length

/-- `Order.getOne(orderId, "!opened")` as used by `getOrder`. -/
def getOneNotOpened (st : State) (orderId : Nat) : Option Order :=
  st.orders.find? (fun o => decide (o.id = orderId ∧ o.status ≠ .opened))

/-- `Order.getOne(orderId, "opened")` as used by `cancelOrder`. -/
def getOneOpened (st : State) (orderId : Nat) : Option Order :=
  st.orders.find? (fun o => decide (o.id = orderId ∧ o.status = .opened))

/-- `order.save()`: replaces the persisted row having the order's id. -/
def saveOrder (st : State) (o : Order) : State :=
  { st with orders := st.orders.map (fun x => if x.id = o.id then o else x) }

/-- Errors thrown by the order services (plus JWT validation of
`createExternalOrder`, which is an external collaborator). -/
inductive Err
  | offerNotFound (offerId : String)
  | capReached (offerId : String)
  | noSuchOrderOrOpen (orderId : Nat)
  | noSuchOrder (orderId : Nat)
  | orderExpired (orderId : Nat)
  | noSuchOffer (offerId : String)
  | invalidForm (orderId : Nat)
  | noSuchOpenOrder (orderId : Nat)
  | invalidSpendJwt
  | openedOrderProjection
deriving DecidableEq, Repr

/-- The OpenOrder API shape `{id, expiration_date}`. -/
structure OpenOrder where
  id : Nat
  expiration_date : Date
deriving DecidableEq, Repr

/-- The marketplace order row built by `db.MarketplaceOrder.new({...})` inside
`createMarketplaceOrder` (status `opened`, meta taken from
`offer.meta.order_meta`). -/
def newMarketplaceOrder (offer : Offer) (offerId userId : String) (now : Date) (id : Nat) : Order :=
  { id := id
    origin := .marketplace
    type := offer.type
    userId := userId
    offerId := offerId
    meta := offer.orderMeta
    amount := offer.amount
    status := .opened
    createdDate := now }

/-- `createMarketplaceOrder(offerId, userId)` from public/services/orders.ts:
fetch the offer, return an already-open order for (userId, offerId) if one
exists, otherwise count against `cap.total` and `cap.per_user` and insert. -/
def createMarketplaceOrder (offerId userId : String) (now : Date) (st : State) :
    Except Err OpenOrder × State :=
  match findOffer st offerId with
  | none => (.error (.offerNotFound offerId), st)
  | some offer =>
    let created : Option Order × State :=
      match findOpenMarketplaceOrder st userId offerId with
      | some order => (some order, st)
      | none =>
        if countOffersOrders st offerId = offer.cap.total then
          (none, st)
        else if countUserOffersOrders st userId offerId = offer.cap.per_user then
          (none, st)
        else
          let order := newMarketplaceOrder offer offerId userId now st.nextId
          (some order, { st with orders := order :: st.orders, nextId := st.nextId + 1 })
    match created with
    | (none, st') => (.error (.capReached offerId), st')
    | (some order, st') =>
      (.ok { id := order.id, expiration_date := (order.expirationDate now).getD 0 }, st')

/-- The external order row built by `db.ExternalOrder.new({...})` inside
`createExternalOrder` (type is always "spend", status `opened`, meta from the
validated JWT offer). -/
def newExternalOrder (offer : Offer) (userId : String) (now : Date) (id : Nat) : Order :=
  { id := id
    origin := .external
    type := .spend
    userId := userId
    offerId := offer.id
    meta := { title := offer.title
              description := offer.description
              wallet_address := offer.wallet_address }
    amount := offer.amount
    status := .opened
    createdDate := now }

/-- `createExternalOrder(jwt, userId)`: `validateSpendJWT` is an external
collaborator, modelled by its outcome `jwtOffer` (`none` means the JWT was
rejected). If an open external order for (userId, offer.id) exists it is
returned; otherwise a new opened order is inserted, with no cap check. -/
def createExternalOrder (jwtOffer : Option Offer) (userId : String) (now : Date) (st : State) :
    Except Err OpenOrder × State :=
  match jwtOffer with
  | none => (.error .invalidSpendJwt, st)
  | some offer =>
    match findOpenExternalOrder st userId offer.id with
    | some order =>
      (.ok { id := order.id, expiration_date := (order.expirationDate now).getD 0 }, st)
    | none =>
      let order := newExternalOrder offer userId now st.nextId
      (.ok { id := order.id, expiration_date := (order.expirationDate now).getD 0 },
       { st with orders := order :: st.orders, nextId := st.nextId + 1 })

/-- The API projection record built by `orderDbToApi`. -/
structure ApiOrder where
  id : Nat
  offer_id : String
  status : OpenOrderStatus
  error : Option OrderError
  completion_date : Date
  title : String
  description : String
  amount : Int
  offer_type : Option OfferType := none
  content : Option String := none
  blockchain_data : Option BlockchainData := none
  call_to_action : Option String := none
deriving DecidableEq, Repr

/-- `orderDbToApi`: `none` models the thrown programming error "opened orders
should not be returned"; `completion_date` is `currentStatusDate || createdDate`,
and the origin-specific fields follow `isMarketplaceOrder()`. -/
def orderDbToApi (o : Order) : Option ApiOrder :=
  if o.status = .opened then
    none
  else
    let base : ApiOrder :=
      { id := o.id
        offer_id := o.offerId
        status := o.status
        error := o.error
        completion_date := o.currentStatusDate.getD o.createdDate
        title := o.meta.title
        description := o.meta.description
        amount := o.amount }
    some (if o.origin = .marketplace then
      { base with
          offer_type := some o.type
          content := o.meta.content
          blockchain_data := o.blockchainData
          call_to_action := o.meta.call_to_action }
    else
      { base with blockchain_data := some { recipient_address := o.meta.wallet_address } })

/-- The in-memory effect of `checkIfTimedOut`: a pending order past its
deadline (`order.expirationDate! < new Date()`) is flipped to failed. -/
def applyTimeout (o : Order) (now : Date) : Order :=
  if o.status = .pending ∧ (o.expirationDate now).getD 0 < now then
    o.setStatus .failed now
  else
    o

/-- `checkIfTimedOut(order)`: flips a timed-out pending order to failed and
persists the flip (`order.save()`); the first component is the in-memory
object from which the caller builds its return value. -/
def checkIfTimedOut (o : Order) (now : Date) (st : State) : Order × State :=
  if o.status = .pending ∧ (o.expirationDate now).getD 0 < now then
    let o' := o.setStatus .failed now
    (o', saveOrder st o')
  else
    (o, st)

/-- `getOrder(orderId)`: fetch with status filter "!opened", apply the lazy
timeout check, project. -/
def getOrder (orderId : Nat) (now : Date) (st : State) : Except Err ApiOrder × State :=
  match getOneNotOpened st orderId with
  | none => (.error (.noSuchOrderOrOpen orderId), st)
  | some order =>
    let p := checkIfTimedOut order now st
    match orderDbToApi p.1 with
    | none => (.error .openedOrderProjection, p.2)
    | some api => (.ok api, p.2)

/-- `submitOrder(orderId, form, walletAddress, appId)`. The form validator
`offerContents.isValid(offer.id, form)` is an external collaborator, modelled
by the oracle `isValid`. Earn offers trigger `payment.payTo(walletAddress,
appId, offer.amount, order.id)` after the pending transition is persisted. -/
def submitOrder (isValid : String → Option String → Bool)
    (orderId : Nat) (form : Option String) (walletAddress appId : String)
    (now : Date) (st : State) : Except Err ApiOrder × State :=
  match st.orders.find? (fun o => decide (o.id = orderId)) with
  | none => (.error (.noSuchOrder orderId), st)
  | some order =>
    if order.status ≠ .opened then
      match orderDbToApi order with
      | none => (.error .openedOrderProjection, st)
      | some api => (.ok api, st)
    else if (order.expirationDate now).getD 0 < now then
      (.error (.orderExpired orderId), st)
    else
      match findOffer st order.offerId with
      | none => (.error (.noSuchOffer order.offerId), st)
      | some offer =>
        if offer.type = .earn ∧ ¬ isValid offer.id form then
          (.error (.invalidForm orderId), st)
        else
          let order' := order.setStatus .pending now
          let st' := saveOrder st order'
          let st'' :=
            if offer.type = .earn then
              { st' with payments := st'.payments ++
                  [{ walletAddress := walletAddress, appId := appId,
                     amount := offer.amount, orderId := order.id }] }
            else
              st'
          match orderDbToApi order' with
          | none => (.error .openedOrderProjection, st'')
          | some api => (.ok api, st'')

/-- `cancelOrder(orderId)`: only an open order can be deleted; the same
"no such open order" error is thrown both when no row has the id and when the
row is not opened. -/
def cancelOrder (orderId : Nat) (st : State) : Except Err Unit × State :=
  match getOneOpened st orderId with
  | none => (.error (.noSuchOpenOrder orderId), st)
  | some order =>
    (.ok (), { st with orders := st.orders.filter (fun o => decide (¬ o.id = order.id)) })

/-- Insertion step of the SQL sort: places `o` before the first row it
precedes under the comparator. -/
def insertDesc (le : Order → Order → Bool) (o : Order) : List Order → List Order
  | [] => [o]
  | x :: xs => if le o x then o :: x :: xs else x :: insertDesc le o xs

/-- Structural insertion sort modelling SQL `ORDER BY`. -/
def sortDesc (le : Order → Order → Bool) : List Order → List Order
  | [] => []
  | x :: xs => insertDesc le x (sortDesc le xs)

/-- The comparator of `Order.getAll`: `completion_date DESC, id DESC`;
a NULL `completion_date` sorts first on DESC as in PostgreSQL. -/
def historyLE (a b : Order) : Bool :=
  match a.currentStatusDate, b.currentStatusDate with
  | none, none => decide (b.id ≤ a.id)
  | none, some _ => true
  | some _, none => false
  | some x, some y => decide (y < x ∨ (y = x ∧ b.id ≤ a.id))

/-- `Order.getAll(userId, "!opened", limit)`: filter by user and status,
order by `completion_date DESC, id DESC`, and apply the limit — the source
applies `query.limit(limit)` only when `limit` is truthy, so 0 means no
limit. -/
def Order.getAll (st : State) (userId : String) (limit : Nat) : List Order :=
  let rows := sortDesc historyLE
    (st.orders.filter (fun o => decide (o.userId = userId ∧ o.status ≠ .opened)))
  if limit ≠ 0 then rows.take limit else rows

/-- Paging cursor pair of the API. -/
structure Cursors where
  after : String
  before : String
deriving DecidableEq, Repr

/-- Paging envelope of the API. -/
structure Paging where
  cursors : Cursors
  previous : String
  next : String
deriving DecidableEq, Repr

/-- OrderList API shape. -/
structure OrderList where
  orders : List ApiOrder
  paging : Paging
deriving DecidableEq, Repr

/-- The constant paging object returned by `getOrderHistory` (the source
returns these literal cursors and links on every call). -/
def hardcodedPaging : Paging :=
  { cursors :=
      { after := "MTAxNTExOTQ1MjAwNzI5NDE"
        before := "NDMyNzQyODI3OTQw" }
    previous := "https://api.kinmarketplace.com/v1/orders?limit=25&before=NDMyNzQyODI3OTQw"
    next := "https://api.kinmarketplace.com/v1/orders?limit=25&after=MTAxNTExOTQ1MjAwNzI5NDE=" }

/-- The `orders.map(order => { checkIfTimedOut(order); return orderDbToApi(order); })`
loop of `getOrderHistory`: each row is timeout-checked (persisting any flip)
and projected from the in-memory object. -/
def projectRows (now : Date) : List Order → State → List (Option ApiOrder) × State
  | [], st => ([], st)
  | o :: rest, st =>
    let p := checkIfTimedOut o now st
    let r := projectRows now rest p.2
    (orderDbToApi p.1 :: r.1, r.2)

/-- Collects a list of optional projections, failing if any is the thrown
"opened orders should not be returned" case. -/
def sequenceOptions : List (Option ApiOrder) → Option (List ApiOrder)
  | [] => some []
  | none :: _ => none
  | some a :: rest => (sequenceOptions rest).map (fun l => a :: l)

/-- `getOrderHistory(userId, limit, before, after)`. The source carries the
comment "XXX use the cursor input values": `before` and `after` are accepted
but never read, and the paging object is the hard-coded constant. -/
def getOrderHistory (userId : String) (limit : Nat) (before after : Option String)
    (now : Date) (st : State) : Except Err OrderList × State :=
  let rows := Order.getAll st userId limit
  let p := projectRows now rows st
  match sequenceOptions p.1 with
  | none => (.error .openedOrderProjection, p.2)
  | some apis => (.ok { orders := apis, paging := hardcodedPaging }, p.2)

/-- Folds a list of (offerId, userId, now) calls through
`createMarketplaceOrder`, carrying the state across both success and error. -/
def runCreates (calls : List (String × String × Date)) (st : State) : State :=
  calls.foldl (fun s c => (createMarketplaceOrder c.1 c.2.1 c.2.2 s).2) st

/-- Number of persisted open marketplace orders for a (userId, offerId) pair;
the predicate is the one of `findOpenMarketplaceOrder`. -/
def countOpenMarketplace (st : State) (userId offerId : String) : Nat :=
  (st.orders.filter (fun o =>
    decide (o.origin = .marketplace ∧ o.userId = userId ∧ o.offerId = offerId ∧ o.status = .opened))).length

/-- Redis keys touched by `RateLimit.check`. The bucket keys are
`bucketPrefix + timestamp`; the first entry of `windowKeys` in the source is
the bare `currentTimestampSeconds.toString()` without the prefix, a distinct
key namespace, modelled by the `raw` constructor. -/
inductive RKey
  | raw (t : ℚ)
  | bucket (t : ℚ)
deriving DecidableEq

/-- Redis state seen by one `RateLimit` instance: the integer counters and the
per-key TTLs (in seconds). -/
structure RLState where
  store : RKey → Option Int
  ttl : RKey → Option ℚ

/-- Bucket resolution: `Math.max(this.windowSize / 60, 1)` (JS float division,
embedded exactly as rational division). -/
def bucketSize (windowSize : ℚ) : ℚ :=
  max (windowSize / 60) 1

/-- `Math.floor((Date.now() / 1000) / bucketSize) * bucketSize`. -/
def currentBucketTs (nowMs : Int) (bSize : ℚ) : ℚ :=
  ((Int.floor (((nowMs : ℚ) / 1000) / bSize)) : ℚ) * bSize

/-- Timestamps pushed by the loop `for (i = 0; i < windowSize; i += bucketSize)`:
`currentTimestampSeconds - i` for each multiple `i` of the bucket size below
the window size; the iteration count is `⌈windowSize / bucketSize⌉₊`. -/
def windowBucketTimestamps (ts windowSize bSize : ℚ) : List ℚ :=
  (List.range ⌈windowSize / bSize⌉₊).map (fun k : ℕ => ts - (k : ℚ) * bSize)

/-- `RateLimit.check(step)`: increment the current bucket by `step`, set its
TTL to `windowSize * 10`, `mget` the window keys (the bare-timestamp key plus
every bucket of the trailing window), drop the missing ones and sum, and
report whether the sum reached `rateLimitValue` (`rateSum >= this.rateLimitValue`). -/
def RateLimit.check (windowSize : ℚ) (rateLimitValue : Int) (step : Int)
    (nowMs : Int) (st : RLState) : Bool × RLState :=
  let bSize := bucketSize windowSize
  let ts := currentBucketTs nowMs bSize
  let afterIncr : RLState :=
    { store := fun k =>
        if k = RKey.bucket ts then some ((st.store (RKey.bucket ts)).getD 0 + step)
        else st.store k
      ttl := fun k =>
        if k = RKey.bucket ts then some (windowSize * 10)
        else st.ttl k }
  let windowKeys : List RKey :=
    RKey.raw ts :: (windowBucketTimestamps ts windowSize bSize).map RKey.bucket
  let rateSum : Int :=
    ((windowKeys.map afterIncr.store).filterMap id).foldl (fun s v => s + v) 0
  (decide (rateLimitValue ≤ rateSum), afterIncr)

/-! Concrete sample data used to evaluate the definitions on closed inputs. -/

/-- Sample order meta. -/
def sampleMeta : OrderMeta := { title := "title", description := "description" }

/-- Sample marketplace offer with `cap.total = 2`, `cap.per_user = 1`. -/
def sampleOffer : Offer :=
  { id := "O1", amount := 10, type := .spend, cap := { total := 2, per_user := 1 },
    orderMeta := sampleMeta }

/-- Store holding only the sample offer. -/
def emptyState : State := { orders := [], offers := [sampleOffer], nextId := 1, payments := [] }

/-- A completed order of user u1 on offer O1. -/
def doneOrder : Order :=
  { id := 5, origin := .marketplace, type := .spend, userId := "u1", offerId := "O1",
    meta := sampleMeta, amount := 10, status := .completed, createdDate := 0,
    currentStatusDate := some 10 }

/-- Store holding one completed order for (u1, O1). -/
def doneState : State :=
  { orders := [doneOrder], offers := [sampleOffer], nextId := 6, payments := [] }

/-- A second completed order, by user u2, on the same offer. -/
def doneOrder2 : Order := { doneOrder with id := 6, userId := "u2" }

/-- Store where offer O1 already holds `cap.total = 2` persisted orders. -/
def cappedState : State :=
  { orders := [doneOrder, doneOrder2], offers := [sampleOffer], nextId := 7, payments := [] }

/-- An opened order of user u1 on offer O1, created at t = 100. -/
def openOrder : Order :=
  { id := 1, origin := .marketplace, type := .spend, userId := "u1", offerId := "O1",
    meta := sampleMeta, amount := 10, status := .opened, createdDate := 100 }

/-- Store holding the opened sample order. -/
def openState : State :=
  { orders := [openOrder], offers := [sampleOffer], nextId := 2, payments := [] }

/-- Form-validation oracle accepting every form. -/
def alwaysValid : String → Option String → Bool := fun _ _ => true

/-- The opened sample order after a pending transition at t = 200. -/
def pendingOrder : Order := { openOrder with status := .pending, currentStatusDate := some 200 }

/-- Store holding the pending sample order. -/
def pendingState : State :=
  { orders := [pendingOrder], offers := [sampleOffer], nextId := 2, payments := [] }

/-- Store with no orders and no offers. -/
def bareState : State := { orders := [], offers := [], nextId := 1, payments := [] }

/-- The pending sample order and a store of it, without offers, for the cancel
counterexample. -/
def cancelState : State :=
  { orders := [pendingOrder], offers := [], nextId := 2, payments := [] }

/-- The state produced by the first accepted submission of `openOrder`
(the opened row replaced by its pending version; spend offer, so no payment). -/
def submittedOrder : Order := { openOrder with status := .pending, currentStatusDate := some 500 }

/-- Store after the first accepted submission. -/
def submittedState : State :=
  { orders := [submittedOrder], offers := [sampleOffer], nextId := 2, payments := [] }

/-- The projection returned by the first accepted submission of `openOrder`. -/
def submittedApi : ApiOrder :=
  { id := 1, offer_id := "O1", status := .pending, error := none, completion_date := 500,
    title := "title", description := "description", amount := 10, offer_type := some .spend }

/-- History sample: completed at 300, failed at 100, pending at 200, one user. -/
def histOrder1 : Order := { openOrder with id := 1, status := .completed, currentStatusDate := some 300 }

/-- Failed history row. -/
def histOrder2 : Order := { openOrder with id := 2, status := .failed, currentStatusDate := some 100 }

/-- Pending history row. -/
def histOrder3 : Order := { openOrder with id := 3, status := .pending, currentStatusDate := some 200 }

/-- Store with the three history rows (deliberately unsorted). -/
def histState : State :=
  { orders := [histOrder2, histOrder1, histOrder3], offers := [sampleOffer], nextId := 4,
    payments := [] }

/-- An external (JWT-validated) offer. -/
def externalOffer : Offer :=
  { id := "EXT1", amount := 30, type := .spend, cap := { total := 0, per_user := 0 },
    orderMeta := sampleMeta, title := "ext", description := "extd",
    wallet_address := some "G123" }

/-- Redis state with no keys. -/
def emptyRL : RLState := { store := fun _ => none, ttl := fun _ => none }

/-! Helper lemmas. -/

/-- The projection succeeds exactly on non-opened orders. -/
lemma orderDbToApi_isSome (o : Order) (h : o.status ≠ .opened) :
    ∃ api, orderDbToApi o = some api := by
  unfold orderDbToApi
  rw [if_neg h]
  exact ⟨_, rfl⟩

/-- The projection preserves the status and renders `completion_date` as
`currentStatusDate || createdDate`. -/
lemma orderDbToApi_status (o : Order) (api : ApiOrder) (h : orderDbToApi o = some api) :
    api.status = o.status ∧ api.completion_date = o.currentStatusDate.getD o.createdDate := by
  unfold orderDbToApi at h
  by_cases ho : o.status = .opened
  · rw [if_pos ho] at h
    cases h
  · rw [if_neg ho] at h
    by_cases hor : o.origin = .marketplace
    · simp only [hor, if_true, reduceIte, Option.some.injEq] at h
      subst h
      exact ⟨rfl, rfl⟩
    · simp only [hor, if_false, reduceIte, Option.some.injEq] at h
      subst h
      exact ⟨rfl, rfl⟩

/-- The in-memory object handed back by `checkIfTimedOut` does not depend on
the store. -/
lemma checkIfTimedOut_fst (o : Order) (now : Date) (st : State) :
    (checkIfTimedOut o now st).1 = applyTimeout o now := by
  unfold checkIfTimedOut applyTimeout
  split
  · rfl
  · rfl

/-- The projections computed by the history loop are the projections of the
timeout-checked in-memory rows, independent of the store threading. -/
lemma projectRows_fst (now : Date) (rows : List Order) (st : State) :
    (projectRows now rows st).1 = rows.map (fun o => orderDbToApi (applyTimeout o now)) := by
  induction rows generalizing st with
  | nil => rfl
  | cons o rest ih =>
    simp only [projectRows, List.map_cons]
    rw [checkIfTimedOut_fst, ih]

/-- Membership in a successfully sequenced projection list. -/
lemma sequenceOptions_mem (l : List (Option ApiOrder)) (L : List ApiOrder) (api : ApiOrder)
    (hseq : sequenceOptions l = some L) (hmem : api ∈ L) : some api ∈ l := by
  induction l generalizing L with
  | nil =>
    unfold sequenceOptions at hseq
    simp only [Option.some.injEq] at hseq
    subst hseq
    cases hmem
  | cons x rest ih =>
    cases x with
    | none => simp [sequenceOptions] at hseq
    | some a =>
      unfold sequenceOptions at hseq
      cases hrest : sequenceOptions rest with
      | none =>
        rw [hrest] at hseq
        simp at hseq
      | some L' =>
        rw [hrest] at hseq
        simp only [Option.map_some', Option.some.injEq] at hseq
        subst hseq
        rcases List.mem_cons.1 hmem with h | h
        · subst h
          exact List.mem_cons_self _ _
        · exact List.mem_cons_of_mem _ (ih L' hrest h)

/-- Membership through the insertion step. -/
lemma mem_insertDesc (le : Order → Order → Bool) (o x : Order) (l : List Order) :
    x ∈ insertDesc le o l ↔ x = o ∨ x ∈ l := by
  induction l with
  | nil => simp [insertDesc]
  | cons y ys ih =>
    unfold insertDesc
    split
    · simp [List.mem_cons]
    · simp only [List.mem_cons, ih]
      tauto

/-- The sort is a permutation at the level of membership. -/
lemma mem_sortDesc (le : Order → Order → Bool) (x : Order) (l : List Order) :
    x ∈ sortDesc le l ↔ x ∈ l := by
  induction l with
  | nil => simp [sortDesc]
  | cons y ys ih =>
    unfold sortDesc
    rw [mem_insertDesc]
    simp [ih]

/-- Rows delivered by `Order.getAll` come from the store, belong to the user
and are not opened. -/
lemma getAll_sub (st : State) (userId : String) (limit : Nat) (o : Order)
    (h : o ∈ Order.getAll st userId limit) :
    o ∈ st.orders ∧ o.userId = userId ∧ o.status ≠ .opened := by
  unfold Order.getAll at h
  have h2 : o ∈ sortDesc historyLE
      (st.orders.filter (fun o => decide (o.userId = userId ∧ o.status ≠ .opened))) := by
    by_cases hl : limit ≠ 0
    · rw [if_pos hl] at h
      exact List.take_subset _ _ h
    · rw [if_neg hl] at h
      exact h
  rw [mem_sortDesc] at h2
  have h3 := List.mem_filter.1 h2
  refine ⟨h3.1, ?_, ?_⟩
  · have := of_decide_eq_true h3.2
    exact this.1
  · have := of_decide_eq_true h3.2
    exact this.2

/-- `createMarketplaceOrder` never touches the offer rows. -/
lemma createMarketplaceOrder_offers (offerId userId : String) (now : Date) (st : State) :
    (createMarketplaceOrder offerId userId now st).2.offers = st.offers := by
  unfold createMarketplaceOrder
  cases hfo : findOffer st offerId with
  | none => rfl
  | some offer =>
    cases hex : findOpenMarketplaceOrder st userId offerId with
    | some order => rfl
    | none =>
      by_cases h1 : countOffersOrders st offerId = offer.cap.total
      · simp only [h1, if_true, reduceIte]
      · by_cases h2 : countUserOffersOrders st userId offerId = offer.cap.per_user
        · simp only [h1, h2, if_false, if_true, reduceIte]
        · simp only [h1, h2, if_false, reduceIte]

/-- One `createMarketplaceOrder` call keeps the per-offer order count at or
under the cap, provided it was at or under the cap before. -/
lemma createMarketplaceOrder_count_le (offerId : String) (offer : Offer) (st : State)
    (cOfferId cUserId : String) (now : Date)
    (hoff : findOffer st offerId = some offer)
    (hle : countOffersOrders st offerId ≤ offer.cap.total) :
    countOffersOrders (createMarketplaceOrder cOfferId cUserId now st).2 offerId
      ≤ offer.cap.total := by
  unfold createMarketplaceOrder
  cases hfo : findOffer st cOfferId with
  | none => exact hle
  | some offerC =>
    cases hex : findOpenMarketplaceOrder st cUserId cOfferId with
    | some order => exact hle
    | none =>
      by_cases h1 : countOffersOrders st cOfferId = offerC.cap.total
      · simp only [h1, if_true, reduceIte]
        exact hle
      · by_cases h2 : countUserOffersOrders st cUserId cOfferId = offerC.cap.per_user
        · simp only [h1, h2, if_false, if_true, reduceIte]
          exact hle
        · simp only [h1, h2, if_false, reduceIte]
          by_cases heq : cOfferId = offerId
          · subst heq
            have hsame : offerC = offer := by
              rw [hfo] at hoff
              exact Option.some.inj hoff
            subst hsame
            have hcount : countOffersOrders
                { st with orders := newMarketplaceOrder offerC cOfferId cUserId now st.nextId :: st.orders,
                          nextId := st.nextId + 1 } cOfferId
                = countOffersOrders st cOfferId + 1 := by
              simp [countOffersOrders, newMarketplaceOrder, List.filter]
            rw [hcount]
            omega
          · have hcount : countOffersOrders
                { st with orders := newMarketplaceOrder offerC cOfferId cUserId now st.nextId :: st.orders,
                          nextId := st.nextId + 1 } offerId
                = countOffersOrders st offerId := by
              simp [countOffersOrders, newMarketplaceOrder, List.filter, heq]
            rw [hcount]
            exact hle

/-- Folding any list of creation calls keeps the per-offer count at or under
the cap. -/
lemma runCreates_count_le (calls : List (String × String × Date)) (st : State)
    (offerId : String) (offer : Offer)
    (hoff : findOffer st offerId = some offer)
    (hle : countOffersOrders st offerId ≤ offer.cap.total) :
    countOffersOrders (runCreates calls st) offerId ≤ offer.cap.total := by
  induction calls generalizing st with
  | nil => exact hle
  | cons c rest ih =>
    have hoff' : findOffer (createMarketplaceOrder c.1 c.2.1 c.2.2 st).2 offerId = some offer := by
      unfold findOffer at hoff ⊢
      rw [createMarketplaceOrder_offers]
      exact hoff
    have hle' := createMarketplaceOrder_count_le offerId offer st c.1 c.2.1 c.2.2 hoff hle
    have : runCreates (c :: rest) st = runCreates rest (createMarketplaceOrder c.1 c.2.1 c.2.2 st).2 := rfl
    rw [this]
    exact ih _ hoff' hle'

/-- Finding by id after a save that replaces that id yields the saved row. -/
lemma find?_save (orders : List Order) (i : Nat) (order o' : Order)
    (hfind : orders.find? (fun o => decide (o.id = i)) = some order)
    (hid : o'.id = order.id) :
    (orders.map (fun x => if x.id = o'.id then o' else x)).find?
      (fun o => decide (o.id = i)) = some o' := by
  have hoid : order.id = i := by simpa using List.find?_some hfind
  induction orders with
  | nil => cases hfind
  | cons x xs ih =>
    rw [List.find?_cons] at hfind
    by_cases hx : x.id = i
    · have : (decide (x.id = i)) = true := decide_eq_true hx
      rw [this] at hfind
      have hxo : x = order := Option.some.inj hfind
      subst hxo
      have hcond : x.id = o'.id := by omega
      simp only [List.map_cons, hcond, if_true, reduceIte, List.find?_cons]
      have : (decide (o'.id = i)) = true := decide_eq_true (by omega)
      rw [this]
    · have : (decide (x.id = i)) = false := decide_eq_false hx
      rw [this] at hfind
      have hcond : ¬ x.id = o'.id := by omega
      simp only [List.map_cons, hcond, if_false, reduceIte, List.find?_cons]
      have hf : (decide (x.id = i)) = false := decide_eq_false hx
      rw [hf]
      exact ih hfind

/-! Claim theorems. -/

/-- C7: for every order, `expirationDate` is a pure function of the status and
the two timestamps: `createdDate + 10min` when opened, `currentStatusDate + 45s`
when pending, `null` when completed or failed; in particular it does not depend
on the current instant (purity stated under the system invariant that pending
orders carry a `currentStatusDate`). -/
theorem C7_expiration_pure (o : Order) (now now' : Date) :
    (o.status = .opened → o.expirationDate now = some (o.createdDate + TEN_MINUTES_MS))
    ∧ (∀ d, o.status = .pending → o.currentStatusDate = some d →
        o.expirationDate now = some (d + FORTY_FIVE_SECONDS_MS))
    ∧ ((o.status = .completed ∨ o.status = .failed) → o.expirationDate now = none)
    ∧ ((o.status = .pending → o.currentStatusDate.isSome) →
        o.expirationDate now = o.expirationDate now') := by
  refine ⟨?_, ?_, ?_, ?_⟩
  · intro h
    simp [Order.expirationDate, h]
  · intro d hp hd
    simp [Order.expirationDate, hp, hd]
  · intro h
    rcases h with h | h <;> simp [Order.expirationDate, h]
  · intro h
    cases hs : o.status with
    | opened => simp [Order.expirationDate, hs]
    | pending =>
      rcases Option.isSome_iff_exists.1 (h hs) with ⟨d, hd⟩
      simp [Order.expirationDate, hs, hd]
    | completed => simp [Order.expirationDate, hs]
    | failed => simp [Order.expirationDate, hs]

/-- Witness for C7 at the concrete pending sample order. -/
theorem C7_expiration_pure_witness :
    pendingOrder.expirationDate 0 = some (200 + FORTY_FIVE_SECONDS_MS)
    ∧ pendingOrder.expirationDate 0 = pendingOrder.expirationDate 999 :=
  ⟨(C7_expiration_pure pendingOrder 0 1).2.1 200 rfl rfl,
   (C7_expiration_pure pendingOrder 0 999).2.2.2 (fun _ => rfl)⟩

/-- C5 counterexample: the claim says the InvalidState error on a non-opened
order is distinct from the NotFound error on a missing id; in the code both
paths throw the very same "no such open order" error, shown here on a store
holding a pending order with id 1 versus a store with no orders at all. -/
theorem C5_counterexample :
    cancelOrder 1 cancelState = (.error (.noSuchOpenOrder 1), cancelState)
    ∧ cancelOrder 1 bareState = (.error (.noSuchOpenOrder 1), bareState)
    ∧ (cancelOrder 1 cancelState).1 = (cancelOrder 1 bareState).1 :=
  ⟨rfl, rfl, rfl⟩

/-- C5 (amended): `cancelOrder` deletes an order exactly when its status is
`opened`; on a non-opened order, and equally on a missing id, it fails with
the single no-such-open-order error and leaves the store unmodified. -/
theorem C5_cancel_guard (st : State) (orderId : Nat) :
    (getOneOpened st orderId = none →
      cancelOrder orderId st = (.error (.noSuchOpenOrder orderId), st))
    ∧ (∀ order, getOneOpened st orderId = some order →
        cancelOrder orderId st =
          (.ok (), { st with orders := st.orders.filter (fun o => decide (¬ o.id = order.id)) })) := by
  constructor
  · intro h
    unfold cancelOrder
    rw [h]
  · intro order h
    unfold cancelOrder
    rw [h]

/-- Witness for C5: cancelling a missing id fails and changes nothing;
cancelling the opened sample order deletes it. -/
theorem C5_cancel_guard_witness :
    cancelOrder 2 openState = (.error (.noSuchOpenOrder 2), openState)
    ∧ cancelOrder 1 openState =
        (.ok (), { openState with
          orders := openState.orders.filter (fun o => decide (¬ o.id = openOrder.id)) }) :=
  ⟨(C5_cancel_guard openState 2).1 rfl, (C5_cancel_guard openState 1).2 openOrder rfl⟩

/-- C6: submitting an opened order past its deadline (`createdDate + 10min`
strictly before now) fails with the expired error and leaves the persisted
state unchanged, so no pending transition and no payment happens. -/
theorem C6_submit_expired (isValid : String → Option String → Bool) (st : State)
    (orderId : Nat) (form : Option String) (walletAddress appId : String)
    (now : Date) (order : Order)
    (hfind : st.orders.find? (fun o => decide (o.id = orderId)) = some order)
    (hopen : order.status = .opened)
    (hexp : order.createdDate + TEN_MINUTES_MS < now) :
    submitOrder isValid orderId form walletAddress appId now st =
      (.error (.orderExpired orderId), st) := by
  have hno : ¬ order.status ≠ .opened := by simp [hopen]
  have hexp2 : (order.expirationDate now).getD 0 < now := by
    simp [Order.expirationDate, hopen, hexp]
  unfold submitOrder
  simp only [hfind]
  rw [if_neg hno, if_pos hexp2]

/-- Witness for C6 at the opened sample order, one millisecond past its
deadline. -/
theorem C6_submit_expired_witness :
    submitOrder alwaysValid 1 none "w" "a" (100 + TEN_MINUTES_MS + 1) openState =
      (.error (.orderExpired 1), openState) :=
  C6_submit_expired alwaysValid openState 1 none "w" "a" (100 + TEN_MINUTES_MS + 1) openOrder
    rfl rfl (by decide)

/-- C10: `createExternalOrder` performs no cap check: it can never fail with
the capacity-exhausted error, and when no open external order for the pair
exists it always persists and returns a new opened order, whatever the store
already contains. -/
theorem C10_external_no_cap (jwtOffer : Option Offer) (userId : String) (now : Date) (st : State) :
    (∀ offerId, (createExternalOrder jwtOffer userId now st).1 ≠ .error (.capReached offerId))
    ∧ (∀ offer, jwtOffer = some offer →
        findOpenExternalOrder st userId offer.id = none →
        createExternalOrder jwtOffer userId now st =
          (.ok { id := st.nextId, expiration_date := now + TEN_MINUTES_MS },
           { st with orders := newExternalOrder offer userId now st.nextId :: st.orders,
                     nextId := st.nextId + 1 })
          ∧ (newExternalOrder offer userId now st.nextId).status = .opened) := by
  constructor
  · intro offerId
    unfold createExternalOrder
    cases jwtOffer with
    | none => simp
    | some offer =>
      cases hex : findOpenExternalOrder st userId offer.id with
      | none => simp [hex]
      | some order => simp [hex]
  · intro offer hj hnone
    subst hj
    unfold createExternalOrder
    simp only [hnone]
    exact ⟨rfl, rfl⟩

/-- Witness for C10 on a store whose offer cap is already fully consumed by
two persisted orders. -/
theorem C10_external_no_cap_witness :
    (∀ offerId, (createExternalOrder (some externalOffer) "u9" 50 cappedState).1
        ≠ .error (.capReached offerId))
    ∧ (createExternalOrder (some externalOffer) "u9" 50 cappedState =
        (.ok { id := cappedState.nextId, expiration_date := 50 + TEN_MINUTES_MS },
         { cappedState with
             orders := newExternalOrder externalOffer "u9" 50 cappedState.nextId :: cappedState.orders,
             nextId := cappedState.nextId + 1 })
        ∧ (newExternalOrder externalOffer "u9" 50 cappedState.nextId).status = .opened) :=
  ⟨(C10_external_no_cap (some externalOffer) "u9" 50 cappedState).1,
   (C10_external_no_cap (some externalOffer) "u9" 50 cappedState).2 externalOffer rfl rfl⟩

/-- C8: at most one open marketplace order per (userId, offerId): when an open
order for the pair exists, `createMarketplaceOrder` returns that very order
and leaves the store untouched; and a call never raises the number of open
marketplace orders of any pair above one. -/
theorem C8_one_open_per_pair (st : State) (offerId userId uid oid : String) (now : Date)
    (offer : Offer) (hoffer : findOffer st offerId = some offer) :
    (∀ order, findOpenMarketplaceOrder st userId offerId = some order →
        createMarketplaceOrder offerId userId now st =
          (.ok { id := order.id, expiration_date := (order.expirationDate now).getD 0 }, st))
    ∧ (countOpenMarketplace st uid oid ≤ 1 →
        countOpenMarketplace (createMarketplaceOrder offerId userId now st).2 uid oid ≤ 1) := by
  constructor
  · intro order hex
    unfold createMarketplaceOrder
    simp only [hoffer, hex]
  · intro hle
    unfold createMarketplaceOrder
    simp only [hoffer]
    cases hex : findOpenMarketplaceOrder st userId offerId with
    | some order => exact hle
    | none =>
      by_cases h1 : countOffersOrders st offerId = offer.cap.total
      · simp only [h1, if_true, reduceIte]
        exact hle
      · by_cases h2 : countUserOffersOrders st userId offerId = offer.cap.per_user
        · simp only [h1, h2, if_false, if_true, reduceIte]
          exact hle
        · simp only [h1, h2, if_false, reduceIte]
          by_cases hu : userId = uid
          · by_cases ho : offerId = oid
            · subst hu
              subst ho
              have h0 : countOpenMarketplace st userId offerId = 0 := by
                unfold countOpenMarketplace
                rw [List.length_eq_zero, List.filter_eq_nil_iff]
                intro a ha
                have := List.find?_eq_none.1 hex a ha
                simpa using this
              have hstep : countOpenMarketplace
                  { st with orders := newMarketplaceOrder offer offerId userId now st.nextId :: st.orders,
                            nextId := st.nextId + 1 } userId offerId
                  = countOpenMarketplace st userId offerId + 1 := by
                simp [countOpenMarketplace, newMarketplaceOrder, List.filter]
              rw [hstep, h0]
            · have hstep : countOpenMarketplace
                  { st with orders := newMarketplaceOrder offer offerId userId now st.nextId :: st.orders,
                            nextId := st.nextId + 1 } uid oid
                  = countOpenMarketplace st uid oid := by
                simp [countOpenMarketplace, newMarketplaceOrder, List.filter, ho]
              rw [hstep]
              exact hle
          · have hstep : countOpenMarketplace
                { st with orders := newMarketplaceOrder offer offerId userId now st.nextId :: st.orders,
                          nextId := st.nextId + 1 } uid oid
                = countOpenMarketplace st uid oid := by
              simp [countOpenMarketplace, newMarketplaceOrder, List.filter, hu]
            rw [hstep]
            exact hle

/-- Witness for C8: re-entering the creation of the opened sample order
returns it unchanged, and a fresh creation by another user keeps every pair
at one open order at most. -/
theorem C8_one_open_per_pair_witness :
    createMarketplaceOrder "O1" "u1" 200 openState =
      (.ok { id := openOrder.id, expiration_date := (openOrder.expirationDate 200).getD 0 },
       openState)
    ∧ countOpenMarketplace (createMarketplaceOrder "O1" "u2" 300 openState).2 "u1" "O1" ≤ 1 :=
  ⟨(C8_one_open_per_pair openState "O1" "u1" "u1" "O1" 200 sampleOffer rfl).1 openOrder rfl,
   (C8_one_open_per_pair openState "O1" "u2" "u1" "O1" 300 sampleOffer rfl).2 (by decide)⟩

/-- C1: when the per-offer count has reached `cap.total`, or the per-user
count has reached `cap.per_user`, and no open order for the pair exists, the
creation persists nothing and fails with the capacity-exhausted error; and
starting at or under `cap.total`, no sequence of creation calls ever pushes
the per-offer count above `cap.total`. -/
theorem C1_offer_caps (st : State) (offerId userId : String) (now : Date) (offer : Offer)
    (hoffer : findOffer st offerId = some offer) :
    ((countOffersOrders st offerId = offer.cap.total ∨
        countUserOffersOrders st userId offerId = offer.cap.per_user) →
      findOpenMarketplaceOrder st userId offerId = none →
      createMarketplaceOrder offerId userId now st = (.error (.capReached offerId), st))
    ∧ (∀ calls, countOffersOrders st offerId ≤ offer.cap.total →
        countOffersOrders (runCreates calls st) offerId ≤ offer.cap.total) := by
  constructor
  · intro hcap hnone
    unfold createMarketplaceOrder
    simp only [hoffer, hnone]
    rcases hcap with h | h
    · simp [h]
    · by_cases h2 : countOffersOrders st offerId = offer.cap.total
      · simp [h2]
      · simp [h2, h]
  · intro calls hle
    exact runCreates_count_le calls st offerId offer hoffer hle

/-- Witness for C1 on the store whose offer (cap.total = 2, cap.per_user = 1)
already holds two completed orders: a third user is refused, the store is
unchanged, and further creation sequences never push the count above the
cap. -/
theorem C1_offer_caps_witness :
    createMarketplaceOrder "O1" "u3" 100 cappedState = (.error (.capReached "O1"), cappedState)
    ∧ countOffersOrders
        (runCreates [("O1", "u3", 200), ("O1", "u4", 300)] cappedState) "O1"
        ≤ sampleOffer.cap.total :=
  ⟨(C1_offer_caps cappedState "O1" "u3" 100 sampleOffer rfl).1 (Or.inl rfl) rfl,
   (C1_offer_caps cappedState "O1" "u3" 100 sampleOffer rfl).2
     [("O1", "u3", 200), ("O1", "u4", 300)] (by decide)⟩

/-- C4: submitting an existing non-opened order returns its current API
projection with the store and payment log untouched; consequently, whatever a
submit call returned through `.ok`, submitting the same id again (with any
arguments) returns the same projection and the same store, so the pending
transition and any payment happen at most once. -/
theorem C4_submit_idempotent (isValid : String → Option String → Bool) (orderId : Nat)
    (form : Option String) (walletAddress appId : String) (now : Date)
    (st : State) (order : Order)
    (hfind : st.orders.find? (fun o => decide (o.id = orderId)) = some order) :
    (order.status ≠ .opened →
      ∃ api, orderDbToApi order = some api ∧
        submitOrder isValid orderId form walletAddress appId now st = (.ok api, st))
    ∧ (∀ isValid2 form2 w2 a2 now2 api st',
        submitOrder isValid orderId form walletAddress appId now st = (.ok api, st') →
        submitOrder isValid2 orderId form2 w2 a2 now2 st' = (.ok api, st')) := by
  constructor
  · intro hno
    obtain ⟨api, hapi⟩ := orderDbToApi_isSome order hno
    refine ⟨api, hapi, ?_⟩
    unfold submitOrder
    simp only [hfind]
    rw [if_pos hno]
    simp only [hapi]
  · intro isValid2 form2 w2 a2 now2 api st' heq
    unfold submitOrder at heq
    simp only [hfind] at heq
    by_cases hno : order.status ≠ .opened
    · rw [if_pos hno] at heq
      obtain ⟨api0, hapi0⟩ := orderDbToApi_isSome order hno
      simp only [hapi0, Prod.mk.injEq, Except.ok.injEq] at heq
      obtain ⟨h1, h2⟩ := heq
      subst h1
      subst h2
      unfold submitOrder
      simp only [hfind]
      rw [if_pos hno]
      simp only [hapi0]
    · rw [if_neg hno] at heq
      by_cases hexp : (order.expirationDate now).getD 0 < now
      · rw [if_pos hexp] at heq
        simp at heq
      · rw [if_neg hexp] at heq
        cases hofr : findOffer st order.offerId with
        | none =>
          simp only [hofr] at heq
          simp at heq
        | some offer =>
          simp only [hofr] at heq
          by_cases hform : offer.type = .earn ∧ ¬ isValid offer.id form
          · rw [if_pos hform] at heq
            simp at heq
          · rw [if_neg hform] at heq
            have hpend : (order.setStatus .pending now).status ≠ .opened := by
              simp [Order.setStatus]
            obtain ⟨api1, hapi1⟩ := orderDbToApi_isSome (order.setStatus .pending now) hpend
            simp only [hapi1, Prod.mk.injEq, Except.ok.injEq] at heq
            obtain ⟨h1, h2⟩ := heq
            subst h1
            subst h2
            have hfind2 : (if offer.type = .earn then
                  { saveOrder st (order.setStatus .pending now) with
                      payments := (saveOrder st (order.setStatus .pending now)).payments ++
                        [{ walletAddress := walletAddress, appId := appId,
                           amount := offer.amount, orderId := order.id }] }
                else
                  saveOrder st (order.setStatus .pending now)).orders.find?
                  (fun o => decide (o.id = orderId)) = some (order.setStatus .pending now) := by
              have hsave : (saveOrder st (order.setStatus .pending now)).orders.find?
                  (fun o => decide (o.id = orderId)) = some (order.setStatus .pending now) := by
                unfold saveOrder
                exact find?_save st.orders orderId order (order.setStatus .pending now) hfind rfl
              by_cases he : offer.type = .earn
              · simp only [he, if_true, reduceIte]
                exact hsave
              · simp only [he, if_false, reduceIte]
                exact hsave
            unfold submitOrder
            simp only [hfind2]
            rw [if_pos hpend]
            simp only [hapi1]

/-- Witness for C4: resubmitting the completed sample order is a no-op, and
after the first accepted submission of the opened sample order a second call
(with different wallet, app and time) returns the same projection and the
same store. -/
theorem C4_submit_idempotent_witness :
    (∃ api, orderDbToApi doneOrder = some api ∧
      submitOrder alwaysValid 5 none "w" "a" 500 doneState = (.ok api, doneState))
    ∧ submitOrder alwaysValid 1 none "w" "a" 500 openState = (.ok submittedApi, submittedState)
    ∧ submitOrder alwaysValid 1 none "w2" "a2" 900 submittedState = (.ok submittedApi, submittedState) :=
  ⟨(C4_submit_idempotent alwaysValid 5 none "w" "a" 500 doneState doneOrder rfl).1 (by decide),
   rfl,
   (C4_submit_idempotent alwaysValid 1 none "w" "a" 500 openState openOrder rfl).2
     alwaysValid none "w2" "a2" 900 submittedApi submittedState rfl⟩

/-- C3: a pending order whose 45-second deadline has passed is returned as
failed by the reads: `getOrder` yields the failed projection (built from the
in-memory flip, before any persistence completes), and `getOrderHistory`
never returns a pending projection past its deadline (stated under the system
invariant that pending rows carry a `currentStatusDate`). -/
theorem C3_lazy_timeout (st : State) (orderId : Nat) (userId : String) (limit : Nat)
    (before after : Option String) (now d : Date) (order : Order)
    (hfind : getOneNotOpened st orderId = some order)
    (hpend : order.status = .pending)
    (hcsd : order.currentStatusDate = some d)
    (hexp : d + FORTY_FIVE_SECONDS_MS < now)
    (hwf : ∀ o ∈ st.orders, o.status = .pending → o.currentStatusDate.isSome) :
    (∃ api, (getOrder orderId now st).1 = .ok api ∧ api.status = .failed)
    ∧ (∀ res, (getOrderHistory userId limit before after now st).1 = .ok res →
        ∀ api ∈ res.orders, api.status = .pending →
          now ≤ api.completion_date + FORTY_FIVE_SECONDS_MS) := by
  constructor
  · have hcond : order.status = .pending ∧ (order.expirationDate now).getD 0 < now := by
      refine ⟨hpend, ?_⟩
      have : (order.expirationDate now).getD 0 = d + FORTY_FIVE_SECONDS_MS := by
        simp [Order.expirationDate, hpend, hcsd]
      rw [this]
      exact hexp
    have hflip : checkIfTimedOut order now st =
        (order.setStatus .failed now, saveOrder st (order.setStatus .failed now)) := by
      unfold checkIfTimedOut
      rw [if_pos hcond]
    have hno : (order.setStatus .failed now).status ≠ .opened := by
      simp [Order.setStatus]
    obtain ⟨api, hapi⟩ := orderDbToApi_isSome _ hno
    refine ⟨api, ?_, ?_⟩
    · unfold getOrder
      simp only [hfind, hflip, hapi]
    · rw [(orderDbToApi_status _ _ hapi).1]
      rfl
  · intro res hres api hmem hstat
    unfold getOrderHistory at hres
    simp only [] at hres
    cases hseq : sequenceOptions (projectRows now (Order.getAll st userId limit) st).1 with
    | none =>
      simp only [hseq] at hres
      simp at hres
    | some apis =>
      simp only [hseq] at hres
      simp only [Except.ok.injEq] at hres
      subst hres
      have hm : some api ∈ (projectRows now (Order.getAll st userId limit) st).1 :=
        sequenceOptions_mem _ _ _ hseq hmem
      rw [projectRows_fst] at hm
      obtain ⟨o, homem, hoeq⟩ := List.mem_map.1 hm
      have hsub := getAll_sub st userId limit o homem
      by_cases hc : o.status = .pending ∧ (o.expirationDate now).getD 0 < now
      · have hfl : (applyTimeout o now).status = .failed := by
          unfold applyTimeout
          rw [if_pos hc]
          rfl
        have := (orderDbToApi_status _ _ hoeq).1
        rw [hstat, hfl] at this
        cases this
      · have happ : applyTimeout o now = o := by
          unfold applyTimeout
          rw [if_neg hc]
        rw [happ] at hoeq
        have hst := orderDbToApi_status _ _ hoeq
        have hop : o.status = .pending := by
          rw [← hst.1]
          exact hstat
        have hnlt : ¬ (o.expirationDate now).getD 0 < now := fun hlt => hc ⟨hop, hlt⟩
        obtain ⟨d0, hd0⟩ := Option.isSome_iff_exists.1 (hwf o hsub.1 hop)
        have hexp0 : (o.expirationDate now).getD 0 = d0 + FORTY_FIVE_SECONDS_MS := by
          simp [Order.expirationDate, hop, hd0]
        have hcomp : api.completion_date = d0 := by
          rw [hst.2, hd0]
          rfl
        rw [hexp0] at hnlt
        rw [hcomp]
        exact le_of_not_lt hnlt

/-- Witness for C3 at the pending sample order (deadline 45200), read at
t = 50000. -/
theorem C3_lazy_timeout_witness :
    (∃ api, (getOrder 1 50000 pendingState).1 = .ok api ∧ api.status = .failed)
    ∧ (∀ res, (getOrderHistory "u1" 25 none none 50000 pendingState).1 = .ok res →
        ∀ api ∈ res.orders, api.status = .pending →
          50000 ≤ api.completion_date + FORTY_FIVE_SECONDS_MS) :=
  C3_lazy_timeout pendingState 1 "u1" 25 none none 50000 200 pendingOrder
    rfl rfl rfl (by decide) (by decide)

/-- C2: evaluation of `getOrderHistory` at a concrete store with three rows
for the user. The status filter, the `(currentStatusDate|createdDate) DESC,
id DESC` ordering and the limit behave as claimed (page is rows 1 then 3),
but the supplied cursor values do not determine the returned page: two calls
with different `before`/`after` cursors return identical results, and the
paging object is the hard-coded constant — the source marks this with
"XXX use the cursor input values". -/
theorem C2_cursors_ignored :
    getOrderHistory "u1" 2 none (some "MTAxNTExOTQ1MjAwNzI5NDE") 250 histState
      = getOrderHistory "u1" 2 (some "NDMyNzQyODI3OTQw") none 250 histState
    ∧ (∃ res, (getOrderHistory "u1" 2 none none 250 histState).1 = .ok res
        ∧ res.orders.map ApiOrder.id = [1, 3]
        ∧ res.paging = hardcodedPaging) :=
  ⟨rfl, ⟨_, rfl, by decide, rfl⟩⟩

/-- Sum of the present values equals the sum of the values with missing keys
read as zero (the `filter(val => val).reduce(...)` step of the rate limiter). -/
lemma foldl_add_filterMap (l : List (Option Int)) (init : Int) :
    (l.filterMap id).foldl (fun s v => s + v) init
      = init + (l.map (fun x => x.getD 0)).sum := by
  induction l generalizing init with
  | nil => simp
  | cons x rest ih =>
    cases x with
    | none => simp [List.filterMap_cons, ih]
    | some a =>
      simp only [List.filterMap_cons, id_eq, List.foldl_cons, List.map_cons, List.sum_cons,
        Option.getD_some]
      rw [ih]
      ring

/-- Every loop index below the ceiling keeps `k * bSize` inside the window. -/
lemma windowTimestamps_bounds (ts windowSize bSize : ℚ) (hb : 0 < bSize)
    (t : ℚ) (ht : t ∈ windowBucketTimestamps ts windowSize bSize) :
    ts - windowSize < t ∧ t ≤ ts := by
  unfold windowBucketTimestamps at ht
  obtain ⟨k, hk, hkt⟩ := List.mem_map.1 ht
  rw [List.mem_range] at hk
  subst hkt
  constructor
  · have hlt : (k : ℚ) < windowSize / bSize := Nat.lt_ceil.1 hk
    have : (k : ℚ) * bSize < windowSize := by
      calc (k : ℚ) * bSize < (windowSize / bSize) * bSize := by
            exact mul_lt_mul_of_pos_right hlt hb
        _ = windowSize := by field_simp
    linarith
  · have : (0 : ℚ) ≤ (k : ℚ) * bSize := by positivity
    linarith

/-- C9: one `RateLimit.check(step)` call: the bucket resolution is
`max(windowSize/60, 1)`; the current bucket is first incremented by `step` and
given TTL `10 * windowSize`; the reported flag is exactly whether the sum of
the (post-increment) buckets of the trailing window has reached the limit; and
every summed bucket timestamp lies in the trailing window `(ts - W, ts]`.
The hypothesis states that the bare-timestamp key read by the source's
`windowKeys[0]` (which no code path ever writes) is absent. -/
theorem C9_rate_limiter (windowSize : ℚ) (rateLimitValue step : Int) (nowMs : Int)
    (st : RLState)
    (hraw : st.store (RKey.raw (currentBucketTs nowMs (bucketSize windowSize))) = none) :
    bucketSize windowSize = max (windowSize / 60) 1
    ∧ (RateLimit.check windowSize rateLimitValue step nowMs st).2.store
        (RKey.bucket (currentBucketTs nowMs (bucketSize windowSize)))
      = some ((st.store (RKey.bucket (currentBucketTs nowMs (bucketSize windowSize)))).getD 0 + step)
    ∧ (RateLimit.check windowSize rateLimitValue step nowMs st).2.ttl
        (RKey.bucket (currentBucketTs nowMs (bucketSize windowSize)))
      = some (windowSize * 10)
    ∧ ((RateLimit.check windowSize rateLimitValue step nowMs st).1
      = decide (rateLimitValue ≤
          ((windowBucketTimestamps (currentBucketTs nowMs (bucketSize windowSize)) windowSize
              (bucketSize windowSize)).map
            (fun t => (((RateLimit.check windowSize rateLimitValue step nowMs st).2).store
              (RKey.bucket t)).getD 0)).sum))
    ∧ (∀ t ∈ windowBucketTimestamps (currentBucketTs nowMs (bucketSize windowSize)) windowSize
          (bucketSize windowSize),
        currentBucketTs nowMs (bucketSize windowSize) - windowSize < t
          ∧ t ≤ currentBucketTs nowMs (bucketSize windowSize)) := by
  refine ⟨rfl, ?_, ?_, ?_, ?_⟩
  · unfold RateLimit.check
    simp
  · unfold RateLimit.check
    simp
  · unfold RateLimit.check
    simp only []
    congr 1
    rw [List.map_cons, List.filterMap_cons]
    have hne : RKey.raw (currentBucketTs nowMs (bucketSize windowSize))
        ≠ RKey.bucket (currentBucketTs nowMs (bucketSize windowSize)) := by
      intro h
      cases h
    rw [if_neg hne, hraw]
    simp only [id_eq]
    rw [foldl_add_filterMap]
    simp only [List.map_map, zero_add]
    congr 1
  · intro t ht
    have hb : (0 : ℚ) < bucketSize windowSize := by
      unfold bucketSize
      have : (1 : ℚ) ≤ max (windowSize / 60) 1 := le_max_right _ _
      linarith
    exact windowTimestamps_bounds _ _ _ hb t ht

/-- Witness for C9: a one-second window, limit 2, step 1, at t = 5000ms, on an
empty key-value store. -/
theorem C9_rate_limiter_witness :
    bucketSize 1 = max ((1 : ℚ) / 60) 1
    ∧ (RateLimit.check 1 2 1 5000 emptyRL).2.store
        (RKey.bucket (currentBucketTs 5000 (bucketSize 1)))
      = some ((emptyRL.store (RKey.bucket (currentBucketTs 5000 (bucketSize 1)))).getD 0 + 1)
    ∧ (RateLimit.check 1 2 1 5000 emptyRL).2.ttl
        (RKey.bucket (currentBucketTs 5000 (bucketSize 1)))
      = some ((1 : ℚ) * 10)
    ∧ ((RateLimit.check 1 2 1 5000 emptyRL).1
      = decide ((2 : Int) ≤
          ((windowBucketTimestamps (currentBucketTs 5000 (bucketSize 1)) 1 (bucketSize 1)).map
            (fun t => (((RateLimit.check 1 2 1 5000 emptyRL).2).store
              (RKey.bucket t)).getD 0)).sum))
    ∧ (∀ t ∈ windowBucketTimestamps (currentBucketTs 5000 (bucketSize 1)) 1 (bucketSize 1),
        currentBucketTs 5000 (bucketSize 1) - 1 < t
          ∧ t ≤ currentBucketTs 5000 (bucketSize 1)) :=
  C9_rate_limiter 1 2 1 5000 emptyRL rfl

end Marketplace
